import Mathlib

/-!
Verification of the Shopify-to-Google-Sheets pipeline (`function_app.py`).

The development shallowly embeds the pure data-transformation core of the
source file: `flatten_data` (lines 18-50), `process_order_data` (lines
54-120) and the table-level part of `process_stores` (lines 248-459).
Nested JSON records are modelled by the inductive type `JVal`; Python
dictionaries are modelled by association lists with first-match lookup,
in-place overwrite on insertion, and key removal, which matches the
observable behaviour of `dict.get`, assignment, `dict.update` and
`dict.pop`.  Pandas data frames are modelled by `Table`: an explicit
ordered column list plus rows; a missing cell in a row plays the role of
`NaN`.  The network fetchers and the Google-Sheets sink are external
collaborators: fetched data is an input of the model and publishing is
recorded in an output list instead of performing I/O.
-/

/-- A Python scalar as it occurs in the JSON payloads: `None`, a boolean,
an integer, or a string.  (Floating point numbers do not occur in any
property below and are not modelled.) -/
inductive Scalar where
  | null : Scalar
  | bool (b : Bool) : Scalar
  | int (n : Int) : Scalar
  | str (s : String) : Scalar
deriving DecidableEq

/-- An arbitrarily nested JSON value: a scalar, a mapping, or a sequence.
This is the "Raw Record" tree of the design. -/
inductive JVal where
  | scalar (s : Scalar) : JVal
  | obj (fields : List (String × JVal)) : JVal
  | arr (elems : List JVal) : JVal

mutual

/-- Boolean structural equality on `JVal` (the derive handler does not
support nested inductives, so it is written out). -/
def jvalBEq : JVal → JVal → Bool
  | .scalar a, .scalar b => a == b
  | .obj a, .obj b => jvalObjBEq a b
  | .arr a, .arr b => jvalArrBEq a b
  | _, _ => false

/-- Boolean equality on mapping field lists. -/
def jvalObjBEq : List (String × JVal) → List (String × JVal) → Bool
  | [], [] => true
  | (k, v) :: r, (k2, v2) :: r2 => k == k2 && jvalBEq v v2 && jvalObjBEq r r2
  | _, _ => false

/-- Boolean equality on element lists. -/
def jvalArrBEq : List JVal → List JVal → Bool
  | [], [] => true
  | v :: r, v2 :: r2 => jvalBEq v v2 && jvalArrBEq r r2
  | _, _ => false

end

mutual

theorem jvalBEq_refl : ∀ a : JVal, jvalBEq a a = true
  | .scalar a => by simp [jvalBEq]
  | .obj a => by simp [jvalBEq, jvalObjBEq_refl a]
  | .arr a => by simp [jvalBEq, jvalArrBEq_refl a]

theorem jvalObjBEq_refl : ∀ a : List (String × JVal), jvalObjBEq a a = true
  | [] => by simp [jvalObjBEq]
  | (k, v) :: r => by simp [jvalObjBEq, jvalBEq_refl v, jvalObjBEq_refl r]

theorem jvalArrBEq_refl : ∀ a : List JVal, jvalArrBEq a a = true
  | [] => by simp [jvalArrBEq]
  | v :: r => by simp [jvalArrBEq, jvalBEq_refl v, jvalArrBEq_refl r]

end

mutual

theorem jvalBEq_eq : ∀ a b : JVal, jvalBEq a b = true → a = b
  | .scalar a, .scalar b => by
    intro h; simp only [jvalBEq, beq_iff_eq] at h; rw [h]
  | .obj a, .obj b => by
    intro h; rw [jvalObjBEq_eq a b h]
  | .arr a, .arr b => by
    intro h; rw [jvalArrBEq_eq a b h]
  | .scalar _, .obj _ => by intro h; simp [jvalBEq] at h
  | .scalar _, .arr _ => by intro h; simp [jvalBEq] at h
  | .obj _, .scalar _ => by intro h; simp [jvalBEq] at h
  | .obj _, .arr _ => by intro h; simp [jvalBEq] at h
  | .arr _, .scalar _ => by intro h; simp [jvalBEq] at h
  | .arr _, .obj _ => by intro h; simp [jvalBEq] at h

theorem jvalObjBEq_eq : ∀ a b : List (String × JVal), jvalObjBEq a b = true → a = b
  | [], [] => by intro _; rfl
  | (k, v) :: r, (k2, v2) :: r2 => by
    intro h
    simp only [jvalObjBEq, Bool.and_eq_true, beq_iff_eq] at h
    rw [h.1.1, jvalBEq_eq v v2 h.1.2, jvalObjBEq_eq r r2 h.2]
  | [], _ :: _ => by intro h; simp [jvalObjBEq] at h
  | _ :: _, [] => by intro h; simp [jvalObjBEq] at h

theorem jvalArrBEq_eq : ∀ a b : List JVal, jvalArrBEq a b = true → a = b
  | [], [] => by intro _; rfl
  | v :: r, v2 :: r2 => by
    intro h
    simp only [jvalArrBEq, Bool.and_eq_true] at h
    rw [jvalBEq_eq v v2 h.1, jvalArrBEq_eq r r2 h.2]
  | [], _ :: _ => by intro h; simp [jvalArrBEq] at h
  | _ :: _, [] => by intro h; simp [jvalArrBEq] at h

end

instance : DecidableEq JVal := fun a b =>
  if h : jvalBEq a b = true then .isTrue (jvalBEq_eq a b h)
  else .isFalse (fun he => h (he ▸ jvalBEq_refl a))

/-- Python truthiness of a scalar: `None`, `False`, `0` and `""` are
falsy; everything else is truthy. -/
def Scalar.truthy : Scalar → Bool
  | .null => false
  | .bool b => b
  | .int n => n != 0
  | .str s => !s.isEmpty

/-- Python truthiness of a JSON value: containers are truthy when
non-empty. -/
def JVal.truthy : JVal → Bool
  | .scalar s => s.truthy
  | .obj fs => !fs.isEmpty
  | .arr es => !es.isEmpty

/-- The Python `None` as a `JVal`. -/
def jnull : JVal := .scalar .null

/-- `d.get(k)` on a Python dict modelled as an association list:
first matching entry, `none` when absent.  (All dicts built below have
distinct keys, as Python dicts do.) -/
def dget {α : Type} : List (Scalar × α) → Scalar → Option α
  | [], _ => none
  | p :: t, k => if p.1 = k then some p.2 else dget t k

/-- `d[k] = v` on a Python dict: overwrite the entry in place when the
key is present, otherwise append a new entry (insertion order is kept,
as in CPython). -/
def dinsert {α : Type} : List (Scalar × α) → Scalar → α → List (Scalar × α)
  | [], k, v => [(k, v)]
  | p :: t, k, v => if p.1 = k then (k, v) :: t else p :: dinsert t k v

/-- `d.pop(k, None)` on a Python dict: remove the entry for `k`. -/
def dpop {α : Type} : List (Scalar × α) → Scalar → List (Scalar × α)
  | [], _ => []
  | p :: t, k => if p.1 = k then dpop t k else p :: dpop t k

/-- The keys of a dict, in order. -/
def dkeys {α : Type} (d : List (Scalar × α)) : List Scalar :=
  d.map (fun p => p.1)

/-- `other.update(m)`: iterate the items of `m`, assigning each into the
receiver (source line 44, `out.update(metafields)`). -/
def dupdate {α : Type} (d m : List (Scalar × α)) : List (Scalar × α) :=
  m.foldl (fun o p => dinsert o p.1 p.2) d

mutual

/-- The inner `flatten` closure of `flatten_data` (source lines 21-33):
depth-first traversal writing each scalar leaf into the accumulator
under its joined path with the trailing separator stripped
(`out[name[:-1]] = x`). -/
def flattenV : JVal → String → List (Scalar × Scalar) → List (Scalar × Scalar)
  | .scalar s, name, out => dinsert out (.str (name.dropRight 1)) s
  | .obj fs, name, out => flattenObj fs name out
  | .arr es, name, out => flattenArr es 0 name out

/-- Traversal of a mapping node: recurse into each value with the path
extended by the key plus `"_"` (source lines 22-24). -/
def flattenObj : List (String × JVal) → String → List (Scalar × Scalar) → List (Scalar × Scalar)
  | [], _, out => out
  | (a, v) :: rest, name, out => flattenObj rest name (flattenV v (name ++ a ++ "_") out)

/-- Traversal of a sequence node: recurse into each element with the
path extended by its zero-based index plus `"_"` (source lines 25-29). -/
def flattenArr : List JVal → Nat → String → List (Scalar × Scalar) → List (Scalar × Scalar)
  | [], _, _, out => out
  | e :: rest, i, name, out => flattenArr rest (i + 1) name (flattenV e (name ++ toString i ++ "_") out)

end

/-- The result of the plain traversal of a record, before the metafield
post-pass (the state of `out` at source line 33). -/
def rawFlat (y : JVal) : List (Scalar × Scalar) := flattenV y "" []

/-- The synthetic flattened path of the `i`-th metafield key name
(`f'metafields_edges_{key}_node_key'`, source line 38). -/
def skeyName (i : Nat) : String := "metafields_edges_" ++ toString i ++ "_node_key"

/-- The synthetic flattened path of the `i`-th metafield value
(`f'metafields_edges_{key}_node_value'`, source line 39). -/
def svalName (i : Nat) : String := "metafields_edges_" ++ toString i ++ "_node_value"

/-- One iteration of the metafield-collection loop (source lines 37-41):
read the synthetic key and value fields for index `i` and, when the key
is truthy, record the pair in the `metafields` dict. -/
def mfStep (out m : List (Scalar × Scalar)) (i : Nat) : List (Scalar × Scalar) :=
  let mk := (dget out (.str (skeyName i))).getD .null
  let mv := (dget out (.str (svalName i))).getD .null
  if mk.truthy then dinsert m mk mv else m

/-- The `metafields` dict after the loop over `range(100)`. -/
def mfDict (out : List (Scalar × Scalar)) : List (Scalar × Scalar) :=
  (List.range 100).foldl (mfStep out) []

/-- One iteration of the removal loop (source lines 45-47): pop both
synthetic per-index fields of index `i`. -/
def popStep (o : List (Scalar × Scalar)) (i : Nat) : List (Scalar × Scalar) :=
  dpop (dpop o (.str (skeyName i))) (.str (svalName i))

/-- `flatten_data(y, shop_name)` (source lines 18-50): flatten the
record, pivot the metafields with truthy keys, remove all synthetic
per-index metafield fields for indices `0..99`, and finally write the
shop name. -/
def flatten_data (y : JVal) (shop_name : String) : List (Scalar × Scalar) :=
  let out := flattenV y "" []
  let out := dupdate out (mfDict out)
  let out := (List.range 100).foldl popStep out
  dinsert out (.str "shop_name") (.str shop_name)

mutual

/-- Specification-side enumeration of the scalar leaves of a record in
traversal order, paired with their joined paths (trailing separator
stripped).  This definition follows the wording of the claim, to be
compared with `flattenV`. -/
def leavesV : JVal → String → List (Scalar × Scalar)
  | .scalar s, name => [(.str (name.dropRight 1), s)]
  | .obj fs, name => leavesObj fs name
  | .arr es, name => leavesArr es 0 name

/-- Leaves of a mapping node, in key order. -/
def leavesObj : List (String × JVal) → String → List (Scalar × Scalar)
  | [], _ => []
  | (a, v) :: rest, name => leavesV v (name ++ a ++ "_") ++ leavesObj rest name

/-- Leaves of a sequence node, in index order. -/
def leavesArr : List JVal → Nat → String → List (Scalar × Scalar)
  | [], _, _ => []
  | e :: rest, i, name => leavesV e (name ++ toString i ++ "_") ++ leavesArr rest (i + 1) name

end

/-! ### Dictionary lemmas -/

theorem dget_dinsert_self {α : Type} (d : List (Scalar × α)) (k : Scalar) (v : α) :
    dget (dinsert d k v) k = some v := by
  induction d with
  | nil => simp [dinsert, dget]
  | cons p t ih =>
    by_cases hp : p.1 = k
    · simp [dinsert, hp, dget]
    · simp [dinsert, hp, dget, ih]

theorem dget_dinsert_ne {α : Type} (d : List (Scalar × α)) (k k2 : Scalar) (v : α)
    (h : k2 ≠ k) : dget (dinsert d k v) k2 = dget d k2 := by
  have hks : ¬ k = k2 := fun he => h he.symm
  induction d with
  | nil => simp [dinsert, dget, hks]
  | cons p t ih =>
    by_cases hp : p.1 = k
    · simp [dinsert, hp, dget, hks]
    · simp [dinsert, hp, dget, ih]

theorem dget_dpop_self {α : Type} (d : List (Scalar × α)) (k : Scalar) :
    dget (dpop d k) k = none := by
  induction d with
  | nil => rfl
  | cons p t ih =>
    by_cases hp : p.1 = k
    · simp [dpop, hp, ih]
    · simp [dpop, hp, dget, ih]

theorem dget_dpop_ne {α : Type} (d : List (Scalar × α)) (k k2 : Scalar)
    (h : k2 ≠ k) : dget (dpop d k) k2 = dget d k2 := by
  have hks : ¬ k = k2 := fun he => h he.symm
  induction d with
  | nil => rfl
  | cons p t ih =>
    by_cases hp : p.1 = k
    · simp [dpop, hp, dget, hks, ih]
    · simp [dpop, hp, dget, ih]

theorem dget_dpop_none {α : Type} (d : List (Scalar × α)) (k k2 : Scalar)
    (h : dget d k2 = none) : dget (dpop d k) k2 = none := by
  induction d with
  | nil => rfl
  | cons p t ih =>
    by_cases hp2 : p.1 = k2
    · simp [dget, hp2] at h
    · have ht : dget t k2 = none := by simpa [dget, hp2] using h
      by_cases hp : p.1 = k
      · simpa [dpop, hp] using ih ht
      · simpa [dpop, hp, dget, hp2] using ih ht

theorem dget_foldl_preserved {α β : Type} (f : List (Scalar × α) → β → List (Scalar × α))
    (l : List β) (d : List (Scalar × α)) (k : Scalar)
    (h : ∀ b ∈ l, ∀ d2, dget (f d2 b) k = dget d2 k) :
    dget (l.foldl f d) k = dget d k := by
  induction l generalizing d with
  | nil => rfl
  | cons b t ih =>
    rw [List.foldl_cons, ih _ (fun x hx d2 => h x (List.mem_cons_of_mem b hx) d2),
      h b (List.mem_cons_self b t) d]

theorem dget_foldl_none {α β : Type} (f : List (Scalar × α) → β → List (Scalar × α))
    (l : List β) (d : List (Scalar × α)) (k : Scalar)
    (h : ∀ b ∈ l, ∀ d2, dget d2 k = none → dget (f d2 b) k = none)
    (h0 : dget d k = none) :
    dget (l.foldl f d) k = none := by
  induction l generalizing d with
  | nil => exact h0
  | cons b t ih =>
    rw [List.foldl_cons]
    exact ih _ (fun x hx d2 => h x (List.mem_cons_of_mem b hx) d2)
      (h b (List.mem_cons_self b t) d h0)

theorem dkeys_dinsert_subset {α : Type} (d : List (Scalar × α)) (k k2 : Scalar) (v : α)
    (h : k2 ∈ dkeys (dinsert d k v)) : k2 = k ∨ k2 ∈ dkeys d := by
  induction d with
  | nil => simp [dinsert, dkeys] at h; exact Or.inl h
  | cons p t ih =>
    by_cases hp : p.1 = k
    · simp only [dinsert, hp, if_true, dkeys, List.map_cons, List.mem_cons] at h
      rcases h with h | h
      · exact Or.inl h
      · exact Or.inr (by simp [dkeys, h])
    · simp only [dinsert, hp, if_false, dkeys, List.map_cons, List.mem_cons] at h
      rcases h with h | h
      · exact Or.inr (by simp [dkeys, h])
      · rcases ih h with h2 | h2
        · exact Or.inl h2
        · exact Or.inr (by simp [dkeys] at h2 ⊢; exact Or.inr h2)

theorem dkeys_nodup_dinsert {α : Type} (d : List (Scalar × α)) (k : Scalar) (v : α)
    (h : (dkeys d).Nodup) : (dkeys (dinsert d k v)).Nodup := by
  induction d with
  | nil => simp [dinsert, dkeys]
  | cons p t ih =>
    simp only [dkeys, List.map_cons, List.nodup_cons] at h
    by_cases hp : p.1 = k
    · simp only [dinsert, hp, if_true, dkeys, List.map_cons, List.nodup_cons]
      exact ⟨hp ▸ h.1, h.2⟩
    · simp only [dinsert, hp, if_false, dkeys, List.map_cons, List.nodup_cons]
      refine ⟨?_, ih h.2⟩
      intro hmem
      rcases dkeys_dinsert_subset t k p.1 v hmem with h2 | h2
      · exact hp h2
      · exact h.1 h2

theorem dget_eq_none_iff {α : Type} (d : List (Scalar × α)) (k : Scalar) :
    dget d k = none ↔ k ∉ dkeys d := by
  induction d with
  | nil => simp [dget, dkeys]
  | cons p t ih =>
    by_cases hp : p.1 = k
    · simp [dget, hp, dkeys]
    · have hks : ¬ k = p.1 := fun he => hp he.symm
      have hm : (k ∈ dkeys (p :: t)) ↔ (k ∈ dkeys t) := by
        simp [dkeys, hks]
      rw [show dget (p :: t) k = dget t k by simp [dget, hp], ih, not_iff_not.mpr hm]

theorem dget_dupdate_not_mem {α : Type} (d m : List (Scalar × α)) (k : Scalar)
    (h : k ∉ dkeys m) : dget (dupdate d m) k = dget d k := by
  unfold dupdate
  apply dget_foldl_preserved
  intro p hp d2
  apply dget_dinsert_ne
  intro he
  exact h (he ▸ List.mem_map_of_mem (fun p => p.1) hp)

theorem dget_dupdate_of_mem {α : Type} (d m : List (Scalar × α)) (k : Scalar) (v : α)
    (hn : (dkeys m).Nodup) (h : dget m k = some v) :
    dget (dupdate d m) k = some v := by
  induction m generalizing d with
  | nil => simp [dget] at h
  | cons p t ih =>
    simp only [dkeys, List.map_cons, List.nodup_cons] at hn
    by_cases hp : p.1 = k
    · simp only [dget, hp, if_true, Option.some.injEq] at h
      have hnot : k ∉ dkeys t := hp ▸ hn.1
      show dget (dupdate (dinsert d p.1 p.2) t) k = some v
      rw [dget_dupdate_not_mem _ _ _ hnot, hp, dget_dinsert_self, h]
    · simp only [dget, hp, if_false] at h
      show dget (dupdate (dinsert d p.1 p.2) t) k = some v
      exact ih _ hn.2 h

/-! ### The metafield post-pass of `flatten_data` -/

/-- Unfolding of `flatten_data` into its named stages. -/
theorem flatten_data_eq (y : JVal) (shop_name : String) :
    flatten_data y shop_name =
      dinsert ((List.range 100).foldl popStep (dupdate (rawFlat y) (mfDict (rawFlat y))))
        (.str "shop_name") (.str shop_name) := rfl

/-- Splitting `range n` at an interior point `i`. -/
theorem range_split (i n : Nat) (h : i < n) :
    List.range n = List.range i ++ i :: (List.range (n - (i + 1))).map (fun x => (i + 1) + x) := by
  have h1 : n = (i + 1) + (n - (i + 1)) := by omega
  conv_lhs => rw [h1]
  rw [List.range_add, List.range_succ, List.append_assoc, List.singleton_append]

/-- Lookup in the collected `metafields` dict: if index `i` has truthy
key `k` and no later index in `[0, 100)` has the same key value, the
dict maps `k` to the value field of index `i`. -/
theorem dget_mfDict (out : List (Scalar × Scalar)) (i : Nat) (k : Scalar) (hi : i < 100)
    (hk : (dget out (.str (skeyName i))).getD .null = k) (ht : k.truthy = true)
    (hlast : ∀ j, i < j → j < 100 → (dget out (.str (skeyName j))).getD .null ≠ k) :
    dget (mfDict out) k = some ((dget out (.str (svalName i))).getD .null) := by
  unfold mfDict
  rw [range_split i 100 hi, List.foldl_append, List.foldl_cons]
  rw [dget_foldl_preserved]
  · show dget (mfStep out _ i) k = _
    simp only [mfStep, hk, ht, if_true]
    exact dget_dinsert_self _ _ _
  · intro j hj d2
    obtain ⟨x, hx, he⟩ := List.mem_map.mp hj
    have hx2 : i < j ∧ j < 100 := by
      have := List.mem_range.mp hx
      omega
    have hne : (dget out (.str (skeyName j))).getD .null ≠ k := hlast j hx2.1 hx2.2
    simp only [mfStep]
    by_cases htr : ((dget out (.str (skeyName j))).getD .null).truthy
    · simp only [htr, if_true]
      exact dget_dinsert_ne _ _ _ _ (fun he2 => hne he2.symm)
    · simp [htr]

/-- The collected `metafields` dict has distinct keys. -/
theorem mfDict_keys_nodup (out : List (Scalar × Scalar)) : (dkeys (mfDict out)).Nodup := by
  unfold mfDict
  have main : ∀ (l : List Nat) (d : List (Scalar × Scalar)), (dkeys d).Nodup →
      (dkeys (l.foldl (mfStep out) d)).Nodup := by
    intro l
    induction l with
    | nil => intro d hd; exact hd
    | cons b t ih =>
      intro d hd
      rw [List.foldl_cons]
      apply ih
      simp only [mfStep]
      by_cases htr : ((dget out (.str (skeyName b))).getD .null).truthy
      · simp only [htr, if_true]
        exact dkeys_nodup_dinsert _ _ _ hd
      · simpa [htr] using hd
  exact main _ [] (by simp [dkeys])

/-- Every key of the collected `metafields` dict is the (truthy) key
value of some index below 100. -/
theorem mfDict_keys_mem (out : List (Scalar × Scalar)) (k : Scalar)
    (h : k ∈ dkeys (mfDict out)) :
    ∃ j, j < 100 ∧ (dget out (.str (skeyName j))).getD .null = k := by
  unfold mfDict at h
  have main : ∀ (l : List Nat) (d : List (Scalar × Scalar)),
      k ∈ dkeys (l.foldl (mfStep out) d) →
      k ∈ dkeys d ∨ ∃ j ∈ l, (dget out (.str (skeyName j))).getD .null = k := by
    intro l
    induction l with
    | nil => intro d h2; exact Or.inl h2
    | cons b t ih =>
      intro d h2
      rw [List.foldl_cons] at h2
      rcases ih _ h2 with h3 | ⟨j, hj, he⟩
      · simp only [mfStep] at h3
        by_cases htr : ((dget out (.str (skeyName b))).getD .null).truthy
        · simp only [htr, if_true] at h3
          rcases dkeys_dinsert_subset _ _ _ _ h3 with h4 | h4
          · exact Or.inr ⟨b, List.mem_cons_self b t, h4.symm⟩
          · exact Or.inl h4
        · simp only [htr, if_false] at h3
          exact Or.inl h3
      · exact Or.inr ⟨j, List.mem_cons_of_mem b hj, he⟩
  rcases main (List.range 100) [] h with h2 | ⟨j, hj, he⟩
  · simp [dkeys] at h2
  · exact ⟨j, List.mem_range.mp hj, he⟩

/-- After the removal loop and the shop-name write, both synthetic
per-index metafield fields of every index below 100 are absent from the
result, whether or not the pivot fired. -/
theorem flatten_data_synth_absent (y : JVal) (tag : String) (j : Nat) (hj : j < 100) :
    dget (flatten_data y tag) (.str (skeyName j)) = none ∧
    dget (flatten_data y tag) (.str (svalName j)) = none := by
  have hdiff : ∀ j2, j2 < 100 → Scalar.str (skeyName j2) ≠ .str "shop_name" ∧
      Scalar.str (svalName j2) ≠ .str "shop_name" := by decide
  rw [flatten_data_eq]
  rw [range_split j 100 hj, List.foldl_append, List.foldl_cons]
  have hpopped : ∀ k2 : Scalar,
      dget (popStep ((List.range j).foldl popStep (dupdate (rawFlat y) (mfDict (rawFlat y)))) j) k2 = none →
      ∀ k3 : Scalar, k3 ≠ .str "shop_name" → k3 = k2 →
      dget (dinsert (((List.range (100 - (j + 1))).map (fun x => (j + 1) + x)).foldl popStep
        (popStep ((List.range j).foldl popStep (dupdate (rawFlat y) (mfDict (rawFlat y)))) j))
        (.str "shop_name") (.str tag)) k3 = none := by
    intro k2 hnone k3 hne he
    subst he
    rw [dget_dinsert_ne _ _ _ _ hne]
    apply dget_foldl_none
    · intro b hb d2 h0
      exact dget_dpop_none _ _ _ (dget_dpop_none _ _ _ h0)
    · exact hnone
  constructor
  · exact hpopped _ (dget_dpop_none _ _ _ (dget_dpop_self _ _)) _ ((hdiff j hj).1) rfl
  · exact hpopped _ (dget_dpop_self _ _) _ ((hdiff j hj).2) rfl

/-- C10: `flatten_data` always maps `shop_name` to the store tag; the
final write (source line 49) overwrites any previously produced
`shop_name` field. -/
theorem shop_name_overwrites (y : JVal) (tag : String) :
    dget (flatten_data y tag) (.str "shop_name") = some (.str tag) := by
  rw [flatten_data_eq]
  exact dget_dinsert_self _ _ _

/-! ### Claims C3 and C9: the metafield pivot -/

theorem skeyName_length (i : Nat) : (skeyName i).length = (toString i).length + 26 := by
  have h17 : ("metafields_edges_" : String).length = 17 := rfl
  have h9 : ("_node_key" : String).length = 9 := rfl
  simp only [skeyName, String.length_append, h17, h9]
  omega

theorem svalName_length (i : Nat) : (svalName i).length = (toString i).length + 28 := by
  have h17 : ("metafields_edges_" : String).length = 17 := rfl
  have h11 : ("_node_value" : String).length = 11 := rfl
  simp only [svalName, String.length_append, h17, h11]
  omega

theorem skeyName_ne_shop (i : Nat) : Scalar.str (skeyName i) ≠ .str "shop_name" := by
  intro h
  have h2 : (skeyName i).length = ("shop_name" : String).length := by
    simp only [Scalar.str.injEq] at h
    rw [h]
  rw [skeyName_length] at h2
  have h9 : ("shop_name" : String).length = 9 := rfl
  omega

theorem svalName_ne_shop (i : Nat) : Scalar.str (svalName i) ≠ .str "shop_name" := by
  intro h
  have h2 : (svalName i).length = ("shop_name" : String).length := by
    simp only [Scalar.str.injEq] at h
    rw [h]
  rw [svalName_length] at h2
  have h9 : ("shop_name" : String).length = 9 := rfl
  omega

/-- Generic pass-through of the post-pass: a field whose key is not the
shop-name field, is none of the popped synthetic names, and is not the
key value of any collected metafield, keeps its pre-pass value. -/
theorem flatten_data_passthrough (y : JVal) (tag : String) (c : Scalar)
    (hc1 : c ≠ .str "shop_name")
    (hc2 : ∀ j, j < 100 → c ≠ .str (skeyName j) ∧ c ≠ .str (svalName j))
    (hc3 : ∀ j, j < 100 → (dget (rawFlat y) (.str (skeyName j))).getD .null ≠ c) :
    dget (flatten_data y tag) c = dget (rawFlat y) c := by
  rw [flatten_data_eq, dget_dinsert_ne _ _ _ _ hc1]
  rw [dget_foldl_preserved]
  · apply dget_dupdate_not_mem
    intro hmem
    obtain ⟨j, hj, he⟩ := mfDict_keys_mem _ _ hmem
    exact hc3 j hj he
  · intro j hj d2
    have hj2 := List.mem_range.mp hj
    rw [show popStep d2 j = dpop (dpop d2 (.str (skeyName j))) (.str (svalName j)) from rfl]
    rw [dget_dpop_ne _ _ _ (hc2 j hj2).2, dget_dpop_ne _ _ _ (hc2 j hj2).1]

/-- C9 (amended): metafield entries at indices at or above the bound of
100 are not pivoted and are not removed either: their synthetic
per-index path fields pass through the post-pass unchanged (provided no
pivoted key value collides with those synthetic names).  The claim as
frozen says such entries contribute no field at all; see the
counterexample. -/
theorem metafield_overflow_passthrough (y : JVal) (tag : String) (i : Nat) (_hi : 100 ≤ i)
    (hpp : ∀ j, j < 100 →
      (Scalar.str (skeyName i) ≠ .str (skeyName j) ∧ Scalar.str (skeyName i) ≠ .str (svalName j)) ∧
      (Scalar.str (svalName i) ≠ .str (skeyName j) ∧ Scalar.str (svalName i) ≠ .str (svalName j)))
    (hupd : ∀ j, j < 100 →
      (dget (rawFlat y) (.str (skeyName j))).getD .null ≠ .str (skeyName i) ∧
      (dget (rawFlat y) (.str (skeyName j))).getD .null ≠ .str (svalName i)) :
    dget (flatten_data y tag) (.str (skeyName i)) = dget (rawFlat y) (.str (skeyName i)) ∧
    dget (flatten_data y tag) (.str (svalName i)) = dget (rawFlat y) (.str (svalName i)) := by
  constructor
  · exact flatten_data_passthrough y tag _ (skeyName_ne_shop i)
      (fun j hj => (hpp j hj).1) (fun j hj => (hupd j hj).1)
  · exact flatten_data_passthrough y tag _ (svalName_ne_shop i)
      (fun j hj => (hpp j hj).2) (fun j hj => (hupd j hj).2)

/-- Concrete customer record whose metafield edge list has 101 entries;
the entry at sequence index 100 is a `key`/`value` pair. -/
def ceOverflow : JVal := .obj [("metafields", .obj [("edges", .arr
  (List.replicate 100 (JVal.obj []) ++
   [JVal.obj [("node", .obj [("key", .scalar (.str "k")), ("value", .scalar (.str "v"))])]]))])]

set_option maxRecDepth 100000 in
/-- C9 counterexample: the claim says entries at indices at or above 100
contribute no field of any name to the Flat Record; in fact the entry at
index 100 leaves its residual synthetic per-index path keys in the
result of `flatten_data`. -/
theorem metafield_overflow_counterexample :
    dget (flatten_data ceOverflow "S") (.str "metafields_edges_100_node_key") = some (.str "k") ∧
    dget (flatten_data ceOverflow "S") (.str "metafields_edges_100_node_value") = some (.str "v") := by
  decide

set_option maxRecDepth 100000 in
/-- Witness for the amended C9 theorem at index 100 on a record carrying
the synthetic overflow path. -/
theorem metafield_overflow_passthrough_witness :
    dget (flatten_data (.obj [("metafields_edges_100_node_key", .scalar (.str "k"))]) "S")
        (.str (skeyName 100))
      = dget (rawFlat (.obj [("metafields_edges_100_node_key", .scalar (.str "k"))]))
        (.str (skeyName 100)) :=
  (metafield_overflow_passthrough (.obj [("metafields_edges_100_node_key", .scalar (.str "k"))])
    "S" 100 (by omega) (by decide) (by decide)).1

/-- C3 (amended): the metafield pivot fires on Python truthiness, not
mere presence: if the synthetic key field of index `i` holds a truthy
value `k`, no later index below 100 holds the same key value, and `k`
collides neither with `shop_name` nor with any synthetic per-index name,
then the Flat Record maps `k` to the value field of index `i`; and the
synthetic per-index fields of every index below 100 are absent from the
Flat Record whether or not the pivot fired. -/
theorem metafield_pivot_truthy (y : JVal) (tag : String) (i : Nat) (k : Scalar) (hi : i < 100)
    (hk : (dget (rawFlat y) (.str (skeyName i))).getD .null = k)
    (ht : k.truthy = true)
    (hlast : ∀ j, i < j → j < 100 → (dget (rawFlat y) (.str (skeyName j))).getD .null ≠ k)
    (hsn : k ≠ .str "shop_name")
    (hpp : ∀ j, j < 100 → k ≠ .str (skeyName j) ∧ k ≠ .str (svalName j)) :
    dget (flatten_data y tag) k = some ((dget (rawFlat y) (.str (svalName i))).getD .null) ∧
    ∀ j, j < 100 → dget (flatten_data y tag) (.str (skeyName j)) = none ∧
      dget (flatten_data y tag) (.str (svalName j)) = none := by
  refine ⟨?_, fun j hj => flatten_data_synth_absent y tag j hj⟩
  rw [flatten_data_eq, dget_dinsert_ne _ _ _ _ hsn]
  rw [dget_foldl_preserved]
  · exact dget_dupdate_of_mem _ _ _ _ (mfDict_keys_nodup _)
      (dget_mfDict (rawFlat y) i k hi hk ht hlast)
  · intro j hj d2
    have hj2 := List.mem_range.mp hj
    rw [show popStep d2 j = dpop (dpop d2 (.str (skeyName j))) (.str (svalName j)) from rfl]
    rw [dget_dpop_ne _ _ _ (hpp j hj2).2, dget_dpop_ne _ _ _ (hpp j hj2).1]

/-- Concrete customer record with one metafield pair whose key value is
the empty string: present and non-null, but falsy in Python. -/
def ceFalsy : JVal := .obj [("metafields", .obj [("edges", .arr
  [JVal.obj [("node", .obj [("key", .scalar (.str "")), ("value", .scalar (.str "x"))])]])])]

set_option maxRecDepth 100000 in
/-- C3 counterexample: the synthetic key field of index 0 is present and
non-null (it holds the empty string), yet the Flat Record contains no
field named by that key value — the code tests Python truthiness, and
the empty string is falsy. -/
theorem metafield_pivot_falsy_counterexample :
    dget (rawFlat ceFalsy) (.str (skeyName 0)) = some (.str "") ∧
    Scalar.str "" ≠ .null ∧
    dget (flatten_data ceFalsy "S") (.str "") = none := by
  decide

/-- Concrete customer record with the two metafield pairs of the spec
example (`vat`/`X1` and `tier`/`gold`). -/
def cePivot : JVal := .obj [("metafields", .obj [("edges", .arr
  [JVal.obj [("node", .obj [("key", .scalar (.str "vat")), ("value", .scalar (.str "X1"))])],
   JVal.obj [("node", .obj [("key", .scalar (.str "tier")), ("value", .scalar (.str "gold"))])]])])]

set_option maxRecDepth 100000 in
/-- Witness for the amended C3 theorem on the spec example record. -/
theorem metafield_pivot_truthy_witness :
    dget (flatten_data cePivot "S") (.str "vat") = some (.str "X1") := by
  have hlast : ∀ j, j < 100 → 0 < j →
      (dget (rawFlat cePivot) (.str (skeyName j))).getD .null ≠ .str "vat" := by decide
  have h := (metafield_pivot_truthy cePivot "S" 0 (.str "vat") (by omega)
    (by decide) (by decide) (fun j h1 h2 => hlast j h2 h1) (by decide) (by decide)).1
  rw [h]
  decide

/-! ### Claim C4: the flattening traversal -/

theorem dkeys_append {α : Type} (d1 d2 : List (Scalar × α)) :
    dkeys (d1 ++ d2) = dkeys d1 ++ dkeys d2 := List.map_append _ _ _

theorem dinsert_not_mem {α : Type} (d : List (Scalar × α)) (k : Scalar) (v : α)
    (h : k ∉ dkeys d) : dinsert d k v = d ++ [(k, v)] := by
  induction d with
  | nil => rfl
  | cons p t ih =>
    simp only [dkeys, List.map_cons, List.mem_cons, not_or] at h
    rw [show dinsert (p :: t) k v = if p.1 = k then (k, v) :: t else p :: dinsert t k v from rfl]
    rw [if_neg (fun he => h.1 he.symm), ih (by simpa [dkeys] using h.2)]
    rfl

mutual

/-- The traversal writes exactly the leaves after the accumulator, when
the leaf paths are distinct and fresh for the accumulator. -/
theorem flattenV_leaves : ∀ (x : JVal) (name : String) (out : List (Scalar × Scalar)),
    (dkeys (leavesV x name)).Nodup →
    (∀ k ∈ dkeys (leavesV x name), k ∉ dkeys out) →
    flattenV x name out = out ++ leavesV x name
  | .scalar s, name, out => by
    intro _ hdisj
    simp only [flattenV, leavesV]
    exact dinsert_not_mem out _ s (hdisj _ (by simp [leavesV, dkeys]))
  | .obj fs, name, out => by
    intro hnd hdisj
    exact flattenObj_leaves fs name out hnd hdisj
  | .arr es, name, out => by
    intro hnd hdisj
    exact flattenArr_leaves es 0 name out hnd hdisj

/-- Mapping-node case of `flattenV_leaves`. -/
theorem flattenObj_leaves : ∀ (fs : List (String × JVal)) (name : String)
    (out : List (Scalar × Scalar)),
    (dkeys (leavesObj fs name)).Nodup →
    (∀ k ∈ dkeys (leavesObj fs name), k ∉ dkeys out) →
    flattenObj fs name out = out ++ leavesObj fs name
  | [], name, out => by
    intro _ _
    simp [flattenObj, leavesObj]
  | (a, v) :: rest, name, out => by
    intro hnd hdisj
    have hsplit : leavesObj ((a, v) :: rest) name
        = leavesV v (name ++ a ++ "_") ++ leavesObj rest name := rfl
    rw [hsplit, dkeys_append, List.nodup_append] at hnd
    obtain ⟨h1, h2, hdj⟩ := hnd
    rw [hsplit, dkeys_append] at hdisj
    show flattenObj rest name (flattenV v (name ++ a ++ "_") out) = _
    rw [flattenV_leaves v _ out h1
      (fun k hk => hdisj k (List.mem_append_left _ hk))]
    rw [flattenObj_leaves rest name _ h2 (fun k hk => by
      rw [dkeys_append, List.mem_append]
      push_neg
      exact ⟨hdisj k (List.mem_append_right _ hk), fun hk1 => hdj hk1 hk⟩)]
    rw [hsplit, List.append_assoc]

/-- Sequence-node case of `flattenV_leaves`. -/
theorem flattenArr_leaves : ∀ (es : List JVal) (i : Nat) (name : String)
    (out : List (Scalar × Scalar)),
    (dkeys (leavesArr es i name)).Nodup →
    (∀ k ∈ dkeys (leavesArr es i name), k ∉ dkeys out) →
    flattenArr es i name out = out ++ leavesArr es i name
  | [], i, name, out => by
    intro _ _
    simp [flattenArr, leavesArr]
  | e :: rest, i, name, out => by
    intro hnd hdisj
    have hsplit : leavesArr (e :: rest) i name
        = leavesV e (name ++ toString i ++ "_") ++ leavesArr rest (i + 1) name := rfl
    rw [hsplit, dkeys_append, List.nodup_append] at hnd
    obtain ⟨h1, h2, hdj⟩ := hnd
    rw [hsplit, dkeys_append] at hdisj
    show flattenArr rest (i + 1) name (flattenV e (name ++ toString i ++ "_") out) = _
    rw [flattenV_leaves e _ out h1
      (fun k hk => hdisj k (List.mem_append_left _ hk))]
    rw [flattenArr_leaves rest (i + 1) name _ h2 (fun k hk => by
      rw [dkeys_append, List.mem_append]
      push_neg
      exact ⟨hdisj k (List.mem_append_right _ hk), fun hk1 => hdj hk1 hk⟩)]
    rw [hsplit, List.append_assoc]

end

theorem dget_of_mem_nodup {α : Type} (d : List (Scalar × α)) (pv : Scalar × α)
    (hnd : (dkeys d).Nodup) (h : pv ∈ d) : dget d pv.1 = some pv.2 := by
  induction d with
  | nil => simp at h
  | cons p t ih =>
    simp only [dkeys, List.map_cons, List.nodup_cons] at hnd
    rcases List.mem_cons.mp h with he | hm
    · subst he
      simp [dget]
    · have hne : p.1 ≠ pv.1 := by
        intro he2
        exact hnd.1 (he2 ▸ List.mem_map_of_mem (fun q => q.1) hm)
      rw [show dget (p :: t) pv.1 = if p.1 = pv.1 then some p.2 else dget t pv.1 from rfl,
        if_neg hne]
      exact ih hnd.2 hm

/-- C4 (amended): when no two distinct leaves of the record share the
same joined path, the traversal output is exactly the list of leaves:
every leaf scalar appears exactly once, under the ordered concatenation
of its ancestor keys and indices with the trailing separator stripped.
The claim as frozen omits the distinct-path proviso; see the
counterexample, where a path collision makes a leaf disappear. -/
theorem flatten_traversal_leaves_unique (y : JVal)
    (hnd : (dkeys (leavesV y "")).Nodup) :
    flattenV y "" [] = leavesV y "" ∧
    ∀ pv ∈ leavesV y "", dget (flattenV y "" []) pv.1 = some pv.2 ∧
      (dkeys (flattenV y "" [])).count pv.1 = 1 := by
  have he : flattenV y "" [] = [] ++ leavesV y ""
    := flattenV_leaves y "" [] hnd (by simp [dkeys])
  rw [List.nil_append] at he
  refine ⟨he, fun pv hpv => ?_⟩
  rw [he]
  refine ⟨dget_of_mem_nodup _ _ hnd hpv, ?_⟩
  exact List.count_eq_one_of_mem hnd (List.mem_map_of_mem _ hpv)

/-- Record with a flattened-path collision: the top-level field `a_b`
and the nested field `b` of `a` both flatten to the path `a_b`. -/
def ceCollision : JVal := .obj [("a_b", .scalar (.int 1)), ("a", .obj [("b", .scalar (.int 2))])]

/-- C4 counterexample: `ceCollision` has a leaf with value `1` whose
joined path is `a_b`, but the traversal output does not contain that
pair at all (the later leaf with the same path overwrote it), so the
leaf does not appear exactly once. -/
theorem flatten_traversal_collision_counterexample :
    (Scalar.str "a_b", Scalar.int 1) ∈ leavesV ceCollision "" ∧
    (flattenV ceCollision "" []).count (Scalar.str "a_b", Scalar.int 1) = 0 := by
  decide

/-- Witness for the amended C4 theorem on a small collision-free record. -/
theorem flatten_traversal_leaves_unique_witness :
    flattenV (.obj [("a", .scalar (.int 1)), ("b", .obj [("c", .scalar (.str "x"))])]) "" []
      = leavesV (.obj [("a", .scalar (.int 1)), ("b", .obj [("c", .scalar (.str "x"))])]) "" :=
  (flatten_traversal_leaves_unique
    (.obj [("a", .scalar (.int 1)), ("b", .obj [("c", .scalar (.str "x"))])]) (by decide)).1

/-! ### Claim C1: the order expander -/

/-- A Python dict with string keys, as an order, line item or
fulfillment arrives from the API. -/
abbrev Obj := List (String × JVal)

/-- A denormalized output row: a dict of cells. -/
abbrev Row := List (Scalar × JVal)

/-- `o.get(k)` on a string-keyed record. -/
def getO : Obj → String → Option JVal
  | [], _ => none
  | p :: t, k => if p.1 = k then some p.2 else getO t k

/-- `x.get(k)` where `x` is expected to be a mapping.  (Calling `.get`
on a non-mapping raises `AttributeError` in Python; no claim exercises
that, and the model returns `none` there.) -/
def jGet (x : JVal) (k : String) : Option JVal :=
  match x with
  | .obj fs => getO fs k
  | _ => none

/-- The elements a `for` loop iterates: the elements of a sequence.
(Iterating a truthy non-sequence would raise in Python; no claim
exercises that.) -/
def jElems : JVal → List JVal
  | .arr es => es
  | _ => []

/-- A flattened dict viewed as a row of cells. -/
def toRow (d : List (Scalar × Scalar)) : Row :=
  d.map (fun p => (p.1, JVal.scalar p.2))

/-- The flattened base fields of an order: every field except
`line_items` and `fulfillments`, flattened with the shop tag (source
lines 58-59). -/
def orderBase (order : Obj) (shop_name : String) : Row :=
  toRow (flatten_data
    (.obj (order.filter (fun p => !(p.1 == "line_items") && !(p.1 == "fulfillments"))))
    shop_name)

/-- The order-context rows (source lines 62-86): one all-null-item row
when the order has no line items, else one row per line item; the
fulfillment fields are null on every such row. -/
def orderItemRows (order : Obj) (shop_name : String) : List Row :=
  let order_data := orderBase order shop_name
  let line_items := (getO order "line_items").getD (.arr [])
  if !line_items.truthy then
    [dupdate order_data
      [(.str "item_type", .scalar (.str "order")), (.str "item_id", jnull),
       (.str "item_title", jnull), (.str "item_quantity", jnull), (.str "item_price", jnull),
       (.str "fulfillment_id", jnull), (.str "fulfillment_status", jnull)]]
  else
    (jElems line_items).map (fun item =>
      dupdate order_data
        [(.str "item_type", .scalar (.str "order")),
         (.str "item_id", (jGet item "id").getD jnull),
         (.str "item_title", (jGet item "title").getD jnull),
         (.str "item_quantity", (jGet item "quantity").getD jnull),
         (.str "item_price", (jGet item "price").getD jnull),
         (.str "fulfillment_id", jnull), (.str "fulfillment_status", jnull)])

/-- The fulfillment-context rows (source lines 89-118): for each
fulfillment, one all-null-item row when it has no line items, else one
row per fulfillment line item; the fulfillment id and status are
populated on every such row. -/
def fulfillmentRows (order : Obj) (shop_name : String) : List Row :=
  let order_data := orderBase order shop_name
  let fulfillments := (getO order "fulfillments").getD (.arr [])
  (jElems fulfillments).flatMap (fun fulfillment =>
    let fulfillment_id := (jGet fulfillment "id").getD jnull
    let fulfillment_status := (jGet fulfillment "status").getD jnull
    let fulfillment_items := (jGet fulfillment "line_items").getD (.arr [])
    if !fulfillment_items.truthy then
      [dupdate order_data
        [(.str "item_type", .scalar (.str "fulfillment")), (.str "item_id", jnull),
         (.str "item_title", jnull), (.str "item_quantity", jnull), (.str "item_price", jnull),
         (.str "fulfillment_id", fulfillment_id), (.str "fulfillment_status", fulfillment_status)]]
    else
      (jElems fulfillment_items).map (fun item =>
        dupdate order_data
          [(.str "item_type", .scalar (.str "fulfillment")),
           (.str "item_id", (jGet item "id").getD jnull),
           (.str "item_title", (jGet item "title").getD jnull),
           (.str "item_quantity", (jGet item "quantity").getD jnull),
           (.str "item_price", (jGet item "price").getD jnull),
           (.str "fulfillment_id", fulfillment_id),
           (.str "fulfillment_status", fulfillment_status)]))

/-- The rows emitted for one order: the order-context group followed by
the fulfillment-context group (source lines 56-118). -/
def processOrder (order : Obj) (shop_name : String) : List Row :=
  orderItemRows order shop_name ++ fulfillmentRows order shop_name

/-- `process_order_data(orders, shop_name)` (source lines 54-120):
append the rows of each order in sequence. -/
def process_order_data (orders : List Obj) (shop_name : String) : List Row :=
  orders.foldl (fun acc order => acc ++ processOrder order shop_name) []

theorem orderItemRows_length (order : Obj) (tag : String) (li : List JVal)
    (hli : (getO order "line_items").getD (.arr []) = .arr li) :
    (orderItemRows order tag).length = max li.length 1 := by
  unfold orderItemRows
  rw [hli]
  cases li with
  | nil => simp [JVal.truthy]
  | cons e t => simp [JVal.truthy, jElems]

theorem orderItemRows_fields (order : Obj) (tag : String) :
    ∀ row ∈ orderItemRows order tag,
      dget row (.str "item_type") = some (.scalar (.str "order")) ∧
      dget row (.str "fulfillment_id") = some jnull ∧
      dget row (.str "fulfillment_status") = some jnull := by
  intro row hrow
  unfold orderItemRows at hrow
  by_cases ht : ((getO order "line_items").getD (.arr [])).truthy
  · simp only [ht, Bool.not_true, Bool.false_eq_true, if_false, List.mem_map] at hrow
    obtain ⟨item, _, he⟩ := hrow
    rw [← he]
    exact ⟨dget_dupdate_of_mem _ _ _ _ (by simp only [dkeys, List.map_cons, List.map_nil]; decide) rfl,
      dget_dupdate_of_mem _ _ _ _ (by simp only [dkeys, List.map_cons, List.map_nil]; decide) rfl,
      dget_dupdate_of_mem _ _ _ _ (by simp only [dkeys, List.map_cons, List.map_nil]; decide) rfl⟩
  · simp only [ht, Bool.not_false, if_true, List.mem_singleton] at hrow
    rw [hrow]
    exact ⟨dget_dupdate_of_mem _ _ _ _ (by simp only [dkeys, List.map_cons, List.map_nil]; decide) rfl,
      dget_dupdate_of_mem _ _ _ _ (by simp only [dkeys, List.map_cons, List.map_nil]; decide) rfl,
      dget_dupdate_of_mem _ _ _ _ (by simp only [dkeys, List.map_cons, List.map_nil]; decide) rfl⟩

theorem fulfillmentRows_type (order : Obj) (tag : String) :
    ∀ row ∈ fulfillmentRows order tag,
      dget row (.str "item_type") = some (.scalar (.str "fulfillment")) := by
  intro row hrow
  unfold fulfillmentRows at hrow
  obtain ⟨f, _, hrow2⟩ := List.mem_flatMap.mp hrow
  by_cases ht : ((jGet f "line_items").getD (.arr [])).truthy
  · simp only [ht, Bool.not_true, Bool.false_eq_true, if_false, List.mem_map] at hrow2
    obtain ⟨item, _, he⟩ := hrow2
    rw [← he]
    exact dget_dupdate_of_mem _ _ _ _ (by simp only [dkeys, List.map_cons, List.map_nil]; decide) rfl
  · simp only [ht, Bool.not_false, if_true, List.mem_singleton] at hrow2
    rw [hrow2]
    exact dget_dupdate_of_mem _ _ _ _ (by simp only [dkeys, List.map_cons, List.map_nil]; decide) rfl

theorem fulfillmentRows_length (order : Obj) (tag : String) (fs : List JVal)
    (hfs : (getO order "fulfillments").getD (.arr []) = .arr fs)
    (hf : ∀ f ∈ fs, ∃ l : List JVal, (jGet f "line_items").getD (.arr []) = .arr l) :
    (fulfillmentRows order tag).length =
      (fs.map (fun f => max (jElems ((jGet f "line_items").getD (.arr []))).length 1)).sum := by
  unfold fulfillmentRows
  rw [hfs]
  show ((jElems (.arr fs)).flatMap _).length = _
  rw [show jElems (.arr fs) = fs from rfl, List.length_flatMap]
  congr 1
  apply List.map_congr_left
  intro f hff
  obtain ⟨l, hl⟩ := hf f hff
  show (_ : List Row).length = _
  simp only [Function.comp_apply]
  cases l with
  | nil => simp [hl, JVal.truthy, jElems]
  | cons e t => simp [hl, JVal.truthy, jElems]

theorem processOrder_no_items (order : Obj) (tag : String)
    (hli : (getO order "line_items").getD (.arr []) = .arr [])
    (hfs : (getO order "fulfillments").getD (.arr []) = .arr []) :
    processOrder order tag =
      [dupdate (orderBase order tag)
        [(.str "item_type", .scalar (.str "order")), (.str "item_id", jnull),
         (.str "item_title", jnull), (.str "item_quantity", jnull), (.str "item_price", jnull),
         (.str "fulfillment_id", jnull), (.str "fulfillment_status", jnull)]] := by
  unfold processOrder orderItemRows fulfillmentRows
  rw [hli, hfs]
  simp [JVal.truthy, jElems]

/-- C1: for an order with `N` line items and `M` fulfillments,
`process_order_data` emits exactly `max(N,1) + sum over fulfillments of
max(len(f.line_items),1)` rows for that order, as two separate groups:
the first `max(N,1)` rows carry item-type `order` and null fulfillment
fields, the remaining rows carry item-type `fulfillment`; an order with
no line items and no fulfillments yields one row with item-type `order`
and all item and fulfillment fields null. -/
theorem process_order_data_row_law (order : Obj) (tag : String) (li fs : List JVal)
    (hli : (getO order "line_items").getD (.arr []) = .arr li)
    (hfs : (getO order "fulfillments").getD (.arr []) = .arr fs)
    (hf : ∀ f ∈ fs, ∃ l : List JVal, (jGet f "line_items").getD (.arr []) = .arr l) :
    (process_order_data [order] tag).length =
      max li.length 1 +
      (fs.map (fun f => max (jElems ((jGet f "line_items").getD (.arr []))).length 1)).sum ∧
    (∀ row ∈ (process_order_data [order] tag).take (max li.length 1),
      dget row (.str "item_type") = some (.scalar (.str "order")) ∧
      dget row (.str "fulfillment_id") = some jnull ∧
      dget row (.str "fulfillment_status") = some jnull) ∧
    (∀ row ∈ (process_order_data [order] tag).drop (max li.length 1),
      dget row (.str "item_type") = some (.scalar (.str "fulfillment"))) ∧
    (li = [] → fs = [] →
      ∃ row, process_order_data [order] tag = [row] ∧
        dget row (.str "item_type") = some (.scalar (.str "order")) ∧
        dget row (.str "item_id") = some jnull ∧ dget row (.str "item_title") = some jnull ∧
        dget row (.str "item_quantity") = some jnull ∧
        dget row (.str "item_price") = some jnull ∧
        dget row (.str "fulfillment_id") = some jnull ∧
        dget row (.str "fulfillment_status") = some jnull) := by
  have hpd : process_order_data [order] tag
      = orderItemRows order tag ++ fulfillmentRows order tag := by
    simp [process_order_data, processOrder]
  have hol := orderItemRows_length order tag li hli
  refine ⟨?_, ?_, ?_, ?_⟩
  · rw [hpd, List.length_append, hol, fulfillmentRows_length order tag fs hfs hf]
  · intro row hrow
    rw [hpd, ← hol, List.take_left] at hrow
    exact orderItemRows_fields order tag row hrow
  · intro row hrow
    rw [hpd, ← hol, List.drop_left] at hrow
    exact fulfillmentRows_type order tag row hrow
  · intro hl0 hf0
    subst hl0; subst hf0
    have he : process_order_data [order] tag =
        [dupdate (orderBase order tag)
          [(.str "item_type", .scalar (.str "order")), (.str "item_id", jnull),
           (.str "item_title", jnull), (.str "item_quantity", jnull), (.str "item_price", jnull),
           (.str "fulfillment_id", jnull), (.str "fulfillment_status", jnull)]] := by
      rw [hpd, ← processOrder_no_items order tag hli hfs]
      rfl
    refine ⟨_, he, ?_, ?_, ?_, ?_, ?_, ?_, ?_⟩ <;>
      exact dget_dupdate_of_mem _ _ _ _ (by simp only [dkeys, List.map_cons, List.map_nil]; decide) rfl

/-- The order of the spec example: 2 line items and 1 fulfillment
containing 3 fulfillment line items. -/
def ordExample : Obj := [("id", .scalar (.int 7)),
  ("line_items", .arr [.obj [("id", .scalar (.int 1)), ("title", .scalar (.str "A"))],
                       .obj [("id", .scalar (.int 2))]]),
  ("fulfillments", .arr [.obj [("id", .scalar (.int 9)), ("status", .scalar (.str "ok")),
    ("line_items", .arr [.obj [("id", .scalar (.int 1))], .obj [("id", .scalar (.int 2))],
                         .obj [("id", .scalar (.int 3))]])]])]

/-- Witness for C1 on the spec example: 2 + 3 = 5 rows. -/
theorem process_order_data_row_law_witness :
    (process_order_data [ordExample] "S").length = 5 := by
  have h := (process_order_data_row_law ordExample "S"
    [.obj [("id", .scalar (.int 1)), ("title", .scalar (.str "A"))],
     .obj [("id", .scalar (.int 2))]]
    [.obj [("id", .scalar (.int 9)), ("status", .scalar (.str "ok")),
      ("line_items", .arr [.obj [("id", .scalar (.int 1))], .obj [("id", .scalar (.int 2))],
                           .obj [("id", .scalar (.int 3))]])]]
    rfl rfl (by
      intro f hfm
      rw [List.mem_singleton] at hfm
      subst hfm
      exact ⟨_, rfl⟩)).1
  rw [h]
  decide

/-! ### The pandas table model -/

/-- Python `str()` of a scalar. -/
def pyStr : Scalar → String
  | .null => "None"
  | .bool true => "True"
  | .bool false => "False"
  | .int n => toString n
  | .str s => s

mutual

/-- Python `repr()` of a JSON value (quote escaping inside strings is
not modelled; no claim depends on it). -/
def pyReprJ : JVal → String
  | .scalar .null => "None"
  | .scalar (.bool true) => "True"
  | .scalar (.bool false) => "False"
  | .scalar (.int n) => toString n
  | .scalar (.str s) => "\x27" ++ s ++ "\x27"
  | .obj fs => "\x7b" ++ String.intercalate ", " (pyReprObj fs) ++ "\x7d"
  | .arr es => "[" ++ String.intercalate ", " (pyReprArr es) ++ "]"

/-- `repr` of the items of a mapping. -/
def pyReprObj : List (String × JVal) → List String
  | [] => []
  | (k, v) :: rest => ("\x27" ++ k ++ "\x27: " ++ pyReprJ v) :: pyReprObj rest

/-- `repr` of the elements of a sequence. -/
def pyReprArr : List JVal → List String
  | [] => []
  | v :: rest => pyReprJ v :: pyReprArr rest

end

/-- Python `str()` of a JSON value: like `repr` except that a bare
string is rendered without quotes. -/
def pyStrJ : JVal → String
  | .scalar s => pyStr s
  | .obj fs => pyReprJ (.obj fs)
  | .arr es => pyReprJ (.arr es)

/-- `astype(str)` of one cell: a missing cell is `NaN`, whose string
form is `"nan"`. -/
def cellStr : Option JVal → String
  | none => "nan"
  | some v => pyStrJ v

/-- A pandas data frame: an explicit ordered column list and rows.  A
row is an association list of cells; a column absent from a row is that
row's `NaN` in the column. -/
structure Table where
  cols : List Scalar
  rows : List Row
deriving DecidableEq

/-- Column labels of `pd.DataFrame(records)`: the union of the record
keys in first-seen order. -/
def colsUnion (records : List Row) : List Scalar :=
  records.foldl (fun acc r => r.foldl (fun acc2 p => if p.1 ∈ acc2 then acc2 else acc2 ++ [p.1]) acc) []

/-- `pd.DataFrame(records)` from a list of dicts. -/
def mkDataFrame (records : List Row) : Table := ⟨colsUnion records, records⟩

/-- `df.rename(columns={old: new}, inplace=True)`. -/
def renameCol (t : Table) (a b : Scalar) : Table :=
  ⟨t.cols.map (fun c => if c = a then b else c),
   t.rows.map (fun r => r.map (fun p => if p.1 = a then (b, p.2) else p))⟩

/-- `df.add_prefix(pfx)`: every column label becomes the prefix followed
by the `str()` form of the old label. -/
def addPrefixT (t : Table) (pfx : String) : Table :=
  ⟨t.cols.map (fun c => .str (pfx ++ pyStr c)),
   t.rows.map (fun r => r.map (fun p => (.str (pfx ++ pyStr p.1), p.2)))⟩

/-- `df[c] = df[c].astype(str)`: replace the column's cell in every row
by its string form. -/
def astypeStrCol (t : Table) (c : Scalar) : Table :=
  ⟨t.cols, t.rows.map (fun r => dinsert r c (.scalar (.str (cellStr (dget r c)))))⟩

/-- Join-key comparison of `pd.merge`: two present, equal values match;
a missing (`NaN`) key never matches. -/
def keyMatch (a b : Option JVal) : Bool :=
  match a, b with
  | some x, some y => decide (x = y)
  | _, _ => false

/-- `pd.merge(l, r, left_on=lk, right_on=rk, how=\x27left\x27)`: every
left row paired with each matching right row in order, or kept alone
(right columns `NaN`) when nothing matches.  (Column suffixing for
overlapping labels is not modelled; the joined tables here have disjoint
prefixed columns.) -/
def mergeLeft (l r : Table) (lk rk : Scalar) : Table :=
  ⟨l.cols ++ r.cols,
   l.rows.flatMap (fun lrow =>
     let ms := r.rows.filter (fun rrow => keyMatch (dget lrow lk) (dget rrow rk))
     if ms.isEmpty then [lrow] else ms.map (fun rrow => lrow ++ rrow))⟩

/-- `df[cs]`: keep exactly the listed columns, in order; a listed column
absent from the frame raises `KeyError`. -/
def selectColumns (t : Table) (cs : List Scalar) : Except String Table :=
  if cs.all (fun c => decide (c ∈ t.cols)) then
    .ok ⟨cs, t.rows.map (fun row => cs.filterMap (fun c => (dget row c).map (fun v => (c, v))))⟩
  else .error "KeyError"

/-- The fixed allow-list of output columns (source lines 345-433). -/
def requiredColumns : List Scalar :=
  [.str "orders_id", .str "orders_cancel_reason",
   .str "orders_cancelled_at", .str "orders_estimated_taxes",
   .str "orders_fulfillment_status", .str "orders_updated_at",
   .str "orders_item_type", .str "orders_item_id",
   .str "orders_item_title", .str "orders_item_quantity",
   .str "orders_item_price", .str "orders_shipping_address_first_name",
   .str "orders_shipping_address_last_name", .str "orders_shipping_address_address1",
   .str "orders_shipping_address_address2", .str "orders_shipping_address_city",
   .str "orders_shipping_address_province", .str "orders_shipping_address_country",
   .str "orders_shipping_address_zip", .str "orders_shipping_address_phone",
   .str "orders_shipping_address_company", .str "orders_shipping_address_name",
   .str "orders_shipping_address_country_code", .str "orders_shipping_address_province_code",
   .str "orders_shipping_address_latitude", .str "orders_shipping_address_longitude",
   .str "orders_billing_address_first_name", .str "orders_billing_address_last_name",
   .str "orders_billing_address_address1", .str "orders_billing_address_address2",
   .str "orders_billing_address_city", .str "orders_billing_address_province",
   .str "orders_billing_address_country", .str "orders_billing_address_zip",
   .str "orders_billing_address_phone", .str "orders_billing_address_company",
   .str "orders_billing_address_name", .str "orders_billing_address_country_code",
   .str "orders_billing_address_province_code", .str "orders_billing_address_latitude",
   .str "orders_billing_address_longitude", .str "orders_customer_default_address_id",
   .str "orders_customer_default_address_customer_id", .str "orders_customer_default_address_first_name",
   .str "orders_customer_default_address_last_name", .str "orders_customer_default_address_company",
   .str "orders_customer_default_address_address1", .str "orders_customer_default_address_address2",
   .str "orders_customer_default_address_city", .str "orders_customer_default_address_province",
   .str "orders_customer_default_address_country", .str "orders_customer_default_address_zip",
   .str "orders_customer_default_address_phone", .str "orders_customer_default_address_name",
   .str "orders_customer_default_address_province_code", .str "orders_customer_default_address_country_code",
   .str "orders_customer_default_address_country_name", .str "orders_customer_default_address_default",
   .str "orders_refunds_0_transactions_0_created_at", .str "orders_refunds_0_refund_line_items_0_line_item_fulfillment_service",
   .str "customers_email", .str "customers_firstName",
   .str "customers_lastName", .str "customers_shop_name",
   .str "customers_vat_number", .str "customers_shipping_address_id",
   .str "customers_billing_address_id", .str "customers_sales_manager",
   .str "orders_shop_name", .str "orders_customer_verified_email",
   .str "orders_customer_email_marketing_consent_state", .str "orders_customer_currency"]
/-- The string-coerce-and-left-join step of the reconciler (source lines
338-342), applied to the prefixed accumulated frames. -/
def combineTables (df_all_customers df_all_orders : Table) : Table :=
  mergeLeft (astypeStrCol df_all_orders (.str "orders_customer_admin_graphql_api_id"))
            (astypeStrCol df_all_customers (.str "customers_id"))
            (.str "orders_customer_admin_graphql_api_id") (.str "customers_id")

/-! ### The store batch processor and reconciler (`process_stores`) -/

/-- The credentials a store resolves to: `credentials.get(store, {})`
followed by `.get("SHOP_NAME")` / `.get("API_ACCESS_TOKEN")` (source
lines 269-272; the API version is passed only to the external fetchers
and is not modelled). -/
structure StoreCreds where
  shop_name : Option String
  access_token : Option String

/-- What the external source returns for a shop: its customer records
and its order records (the paginated fetchers are external
collaborators, so their result is an input of the model). -/
structure StoreData where
  customers : List JVal
  orders : List Obj

/-- The mutable state of a run: the result messages, the two cross-store
accumulators, and the tabs published so far (publishing to the sheet is
the external sink; the model records the tab name and table instead). -/
structure RunState where
  results : List String
  all_customers : List (List (Scalar × Scalar))
  all_orders : List Row
  published : List (String × Table)
deriving DecidableEq

/-- Python truthiness of `.get` on a credentials entry: absent or empty
strings are falsy (`if shop_name and access_token:`, line 274). -/
def optTruthy : Option String → Bool
  | none => false
  | some s => !s.isEmpty

/-- The configured stores and their destination tabs (source lines
259-263), iterated in insertion order. -/
def storesList : List (String × String × String) :=
  [("SHOPIFY_EU", "Customer_EU", "Orders_EU"),
   ("SHOPIFY_CZ", "Customer_CZ", "Orders_CZ"),
   ("SHOPIFY_CARPORT", "Customer_Carport", "Orders_Carport")]

/-- One iteration of the store loop (source lines 267-322).  A raised
`KeyError` aborts the run; the error value carries the state at the
raise so the already-published tabs stay observable. -/
def processStore (creds : String → StoreCreds) (data : String → StoreData)
    (st : RunState) : String × String × String → Except (RunState × String) RunState
  | (store, tab_customers, tab_orders) =>
    let sc := creds store
    if optTruthy sc.shop_name && optTruthy sc.access_token then
      let shop_name := sc.shop_name.getD ""
      let customers := (data shop_name).customers
      let orders := (data shop_name).orders
      let custStep : Except (RunState × String) RunState :=
        if !customers.isEmpty then
          let flattened_customers := customers.map (fun c => flatten_data c shop_name)
          let df_customers := mkDataFrame (flattened_customers.map toRow)
          if (Scalar.str "id") ∈ df_customers.cols then
            let df2 := renameCol df_customers (.str "id") (.str "customers_id")
            .ok ⟨st.results ++ ["Flattened customers data for " ++ shop_name ++
                  " has been saved to Google Sheets tab: " ++ tab_customers ++ "."],
                 st.all_customers ++ flattened_customers,
                 st.all_orders,
                 st.published ++ [(tab_customers, df2)]⟩
          else .error (st, "KeyError: \x27id\x27 column is missing in customer data")
        else
          .ok ⟨st.results ++ ["No customer data found for store: " ++ shop_name],
               st.all_customers, st.all_orders, st.published⟩
      custStep.bind (fun st1 =>
        if !orders.isEmpty then
          let processed_orders := process_order_data orders shop_name
          let df_orders := mkDataFrame processed_orders
          if (Scalar.str "customer_id") ∈ df_orders.cols then
            let df2 := renameCol df_orders (.str "customer_id") (.str "orders_customer_id")
            .ok ⟨st1.results ++ ["Processed orders data for " ++ shop_name ++
                  " has been saved to Google Sheets tab: " ++ tab_orders ++ "."],
                 st1.all_customers,
                 st1.all_orders ++ processed_orders,
                 st1.published ++ [(tab_orders, df2)]⟩
          else .error (st1, "KeyError: \x27customer_id\x27 column is missing in orders data")
        else
          .ok ⟨st1.results ++ ["No orders data found for store: " ++ shop_name],
               st1.all_customers, st1.all_orders, st1.published⟩)
    else
      .ok ⟨st.results ++ ["Missing credentials for store: " ++ store],
           st.all_customers, st.all_orders, st.published⟩

/-- The initial run state. -/
def initState : RunState := ⟨[], [], [], []⟩

/-- The store loop over the three configured stores. -/
def runStores (creds : String → StoreCreds) (data : String → StoreData) :
    Except (RunState × String) RunState :=
  storesList.foldl (fun acc entry => acc.bind (fun st => processStore creds data st entry))
    (.ok initState)

/-- The final publishes of the two all-store tables (source lines
446-453), with the frames as they stand after the join step (the
in-place `astype` of the key columns is visible here). -/
def finishUp (st : RunState) (hasC hasO : Bool) (dfc dfo : Table) : RunState :=
  let st2 :=
    if hasC then
      RunState.mk (st.results ++
          ["Combined customer data has been saved to Google Sheets tab: Customers_all."])
        st.all_customers st.all_orders (st.published ++ [("Customers_all", dfc)])
    else st
  if hasO then
    RunState.mk (st2.results ++
        ["Combined orders data has been saved to Google Sheets tab: Orders_all."])
      st2.all_customers st2.all_orders (st2.published ++ [("Orders_all", dfo)])
  else st2

/-- The code after the store loop (source lines 324-453).  The frames
are built at lines 325-329 only when the corresponding accumulator is
non-empty, but the debug f-strings at lines 332-333 read them
unconditionally: an empty accumulator leaves the local name unassigned
and the f-string raises `UnboundLocalError` before anything else runs. -/
def postLoop (st : RunState) : Except (RunState × String) RunState :=
  if st.all_customers.isEmpty then
    .error (st,
      "UnboundLocalError: local variable \x27df_all_customers\x27 referenced before assignment")
  else if st.all_orders.isEmpty then
    .error (st,
      "UnboundLocalError: local variable \x27df_all_orders\x27 referenced before assignment")
  else
    let df_all_customers := addPrefixT (mkDataFrame (st.all_customers.map toRow)) "customers_"
    let df_all_orders := addPrefixT (mkDataFrame st.all_orders) "orders_"
    if !st.all_customers.isEmpty && !st.all_orders.isEmpty then
      if decide ((Scalar.str "customers_id") ∈ df_all_customers.cols) &&
          decide ((Scalar.str "orders_customer_admin_graphql_api_id") ∈ df_all_orders.cols) then
        let dfc := astypeStrCol df_all_customers (.str "customers_id")
        let dfo := astypeStrCol df_all_orders (.str "orders_customer_admin_graphql_api_id")
        let df_combined := combineTables df_all_customers df_all_orders
        match selectColumns df_combined requiredColumns with
        | .ok dfsel =>
          .ok (finishUp
            (RunState.mk (st.results ++
                ["Merged customer and orders data has been saved to Google Sheets tab: Combined_Customers_Orders."])
              st.all_customers st.all_orders
              (st.published ++ [("Combined_Customers_Orders", dfsel)]))
            (!st.all_customers.isEmpty) (!st.all_orders.isEmpty) dfc dfo)
        | .error _ => .error (st, "KeyError: combined columns missing")
      else .error (st, "One or both of the required columns are missing for merging")
    else
      .ok (finishUp st (!st.all_customers.isEmpty) (!st.all_orders.isEmpty)
        df_all_customers df_all_orders)

/-- `process_stores()` (source lines 248-459): run the store loop, then
the reconciliation and final publishes; any raise propagates out of the
`try` and the run reports failure. -/
def process_stores (creds : String → StoreCreds) (data : String → StoreData) :
    Except (RunState × String) RunState :=
  (runStores creds data).bind postLoop

/-! ### Claim C2: left-join cardinality -/

theorem flatMap_eq_map_of_singleton {α β : Type} (xs : List α) (g : α → List β) (f : α → β)
    (h : ∀ a ∈ xs, g a = [f a]) : xs.flatMap g = xs.map f := by
  induction xs with
  | nil => rfl
  | cons a t ih =>
    rw [List.flatMap_cons, h a (List.mem_cons_self a t),
      ih (fun x hx => h x (List.mem_cons_of_mem a hx))]
    rfl

/-- C2 (amended): the Combined Table has exactly one row per accumulated
order row provided each string-coerced order key matches at most one
customer row; each order row then appears exactly once, in order,
extended by its unique match or left alone, and an unmatched order row
reads `NaN` (null) in every column it does not carry.  The claim as
frozen quantifies over every customer table; a duplicated customer key
duplicates the matching order rows — see the counterexample. -/
theorem combine_tables_left_join (dfc dfo : Table)
    (h : ∀ lrow ∈ (astypeStrCol dfo (.str "orders_customer_admin_graphql_api_id")).rows,
      ((astypeStrCol dfc (.str "customers_id")).rows.filter
        (fun rrow => keyMatch (dget lrow (.str "orders_customer_admin_graphql_api_id"))
          (dget rrow (.str "customers_id")))).length ≤ 1) :
    (combineTables dfc dfo).rows.length = dfo.rows.length ∧
    (combineTables dfc dfo).rows
      = (astypeStrCol dfo (.str "orders_customer_admin_graphql_api_id")).rows.map (fun lrow =>
        match (astypeStrCol dfc (.str "customers_id")).rows.filter
          (fun rrow => keyMatch (dget lrow (.str "orders_customer_admin_graphql_api_id"))
            (dget rrow (.str "customers_id"))) with
        | [] => lrow
        | rrow :: _ => lrow ++ rrow) ∧
    (∀ lrow ∈ (astypeStrCol dfo (.str "orders_customer_admin_graphql_api_id")).rows,
      (astypeStrCol dfc (.str "customers_id")).rows.filter
        (fun rrow => keyMatch (dget lrow (.str "orders_customer_admin_graphql_api_id"))
          (dget rrow (.str "customers_id"))) = [] →
      lrow ∈ (combineTables dfc dfo).rows ∧ ∀ c, c ∉ dkeys lrow → dget lrow c = none) := by
  have hrows : (combineTables dfc dfo).rows
      = (astypeStrCol dfo (.str "orders_customer_admin_graphql_api_id")).rows.map (fun lrow =>
        match (astypeStrCol dfc (.str "customers_id")).rows.filter
          (fun rrow => keyMatch (dget lrow (.str "orders_customer_admin_graphql_api_id"))
            (dget rrow (.str "customers_id"))) with
        | [] => lrow
        | rrow :: _ => lrow ++ rrow) := by
    show List.flatMap _ _ = _
    apply flatMap_eq_map_of_singleton
    intro lrow hlrow
    have hle := h lrow hlrow
    cases hms : (astypeStrCol dfc (.str "customers_id")).rows.filter
        (fun rrow => keyMatch (dget lrow (.str "orders_customer_admin_graphql_api_id"))
          (dget rrow (.str "customers_id"))) with
    | nil => simp [hms]
    | cons a t =>
      cases t with
      | nil => simp [hms]
      | cons b t2 =>
        rw [hms] at hle
        simp at hle
  have hlen : (astypeStrCol dfo (.str "orders_customer_admin_graphql_api_id")).rows.length
      = dfo.rows.length := by
    show (dfo.rows.map _).length = _
    rw [List.length_map]
  refine ⟨?_, hrows, ?_⟩
  · rw [hrows, List.length_map, hlen]
  · intro lrow hlrow hempty
    constructor
    · rw [hrows]
      refine List.mem_map.mpr ⟨lrow, hlrow, ?_⟩
      simp only [hempty]
    · intro c hc
      exact (dget_eq_none_iff lrow c).mpr hc

/-- Orders table with one row whose string-coerced customer reference is
`"1"`. -/
def dfoDup : Table :=
  ⟨[.str "orders_customer_admin_graphql_api_id"],
   [[(.str "orders_customer_admin_graphql_api_id", .scalar (.str "1"))]]⟩

/-- Customers table with two rows sharing the customer id `"1"`. -/
def dfcDup : Table :=
  ⟨[.str "customers_id", .str "customers_email"],
   [[(.str "customers_id", .scalar (.str "1")), (.str "customers_email", .scalar (.str "a"))],
    [(.str "customers_id", .scalar (.str "1")), (.str "customers_email", .scalar (.str "b"))]]⟩

/-- C2 counterexample: one accumulated order row against a customer
table with a duplicated key yields a Combined Table with two rows, not
one — the left join does not preserve left cardinality for every
customer table. -/
theorem combine_tables_dup_counterexample :
    dfoDup.rows.length = 1 ∧ (combineTables dfcDup dfoDup).rows.length = 2 := by
  decide

/-- Customers table with distinct keys, for the witness. -/
def dfcUniq : Table :=
  ⟨[.str "customers_id", .str "customers_email"],
   [[(.str "customers_id", .scalar (.str "1")), (.str "customers_email", .scalar (.str "a"))]]⟩

/-- Orders table with two rows (one matched, one unmatched), for the
witness. -/
def dfoUniq : Table :=
  ⟨[.str "orders_customer_admin_graphql_api_id"],
   [[(.str "orders_customer_admin_graphql_api_id", .scalar (.str "1"))],
    [(.str "orders_customer_admin_graphql_api_id", .scalar (.str "9"))]]⟩

/-- Witness for the amended C2 theorem: with distinct customer keys the
Combined Table row count equals the order row count. -/
theorem combine_tables_left_join_witness :
    (combineTables dfcUniq dfoUniq).rows.length = dfoUniq.rows.length :=
  (combine_tables_left_join dfcUniq dfoUniq (by decide)).1

/-! ### Claim C5: the allow-list projection -/

/-- C5: selecting the allow-list keeps exactly the allow-listed columns
(in the listed order, extras dropped from columns and rows), a missing
allow-listed column raises `KeyError`, and at run level that `KeyError`
aborts the run with no Combined Table publish (the error state is the
state before the publish). -/
theorem allow_list_projection :
    (∀ t : Table, (∀ c ∈ requiredColumns, c ∈ t.cols) →
      ∃ t2, selectColumns t requiredColumns = .ok t2 ∧ t2.cols = requiredColumns ∧
        ∀ row ∈ t2.rows, ∀ p ∈ row, p.1 ∈ requiredColumns) ∧
    (∀ t : Table, (∃ c ∈ requiredColumns, c ∉ t.cols) →
      selectColumns t requiredColumns = .error "KeyError") ∧
    (∀ st : RunState, st.all_customers ≠ [] → st.all_orders ≠ [] →
      (Scalar.str "customers_id")
        ∈ (addPrefixT (mkDataFrame (st.all_customers.map toRow)) "customers_").cols →
      (Scalar.str "orders_customer_admin_graphql_api_id")
        ∈ (addPrefixT (mkDataFrame st.all_orders) "orders_").cols →
      ∀ e, selectColumns (combineTables
          (addPrefixT (mkDataFrame (st.all_customers.map toRow)) "customers_")
          (addPrefixT (mkDataFrame st.all_orders) "orders_")) requiredColumns = .error e →
        postLoop st = .error (st, "KeyError: combined columns missing")) ∧
    (∀ (creds : String → StoreCreds) (data : String → StoreData) (st : RunState)
      (p : RunState × String), runStores creds data = .ok st → postLoop st = .error p →
      process_stores creds data = .error p) := by
  refine ⟨?_, ?_, ?_, ?_⟩
  · intro t hcols
    unfold selectColumns
    rw [if_pos (List.all_eq_true.mpr (fun c hc => decide_eq_true (hcols c hc)))]
    refine ⟨_, rfl, rfl, ?_⟩
    intro row hrow p hp
    obtain ⟨row0, _, he⟩ := List.mem_map.mp hrow
    rw [← he] at hp
    obtain ⟨c, hcin, hsome⟩ := List.mem_filterMap.mp hp
    obtain ⟨v, _, hv⟩ := Option.map_eq_some.mp hsome
    rw [← hv]
    exact hcin
  · intro t ⟨c, hc, hnc⟩
    unfold selectColumns
    rw [if_neg]
    intro hall
    exact hnc (of_decide_eq_true (List.all_eq_true.mp hall c hc))
  · intro st hc ho h1 h2 e hsel
    have hc2 : st.all_customers.isEmpty = false := by
      simpa [List.isEmpty_iff] using hc
    have ho2 : st.all_orders.isEmpty = false := by
      simpa [List.isEmpty_iff] using ho
    unfold postLoop
    simp only [hc2, ho2, Bool.false_eq_true, if_false, Bool.not_false, Bool.and_self, if_true,
      decide_eq_true h1, decide_eq_true h2, Bool.true_and, hsel]
  · intro creds data st p hrun hpost
    unfold process_stores
    rw [hrun]
    simpa [Except.bind] using hpost

/-- A joined table carrying every allow-listed column plus one extra. -/
def tAllow : Table :=
  ⟨requiredColumns ++ [.str "extra_col"],
   [[(.str "orders_id", .scalar (.int 1)), (.str "extra_col", .scalar (.int 2))]]⟩

set_option maxRecDepth 100000 in
/-- Witness for C5: on a table with an extra column, the projection
succeeds and its column set is exactly the allow-list. -/
theorem allow_list_projection_witness :
    ∃ t2, selectColumns tAllow requiredColumns = .ok t2 ∧ t2.cols = requiredColumns := by
  obtain ⟨t2, h1, h2, _⟩ := allow_list_projection.1 tAllow (by decide)
  exact ⟨t2, h1, h2⟩

/-! ### Claim C6: missing join keys are fatal -/

theorem except_bind_ok {ε α β : Type} (x : Except ε α) (f : α → Except ε β) (b : β)
    (h : x.bind f = .ok b) : ∃ a, x = .ok a ∧ f a = .ok b := by
  cases x with
  | error e => simp [Except.bind] at h
  | ok a => exact ⟨a, rfl, by simpa [Except.bind] using h⟩

/-- One store-loop step only publishes to that store's two tabs. -/
theorem processStore_published_names (creds : String → StoreCreds) (data : String → StoreData)
    (st : RunState) (store tabc tabo : String) (st2 : RunState)
    (h : processStore creds data st (store, tabc, tabo) = .ok st2) :
    ∀ tab ∈ st2.published, tab ∈ st.published ∨ tab.1 = tabc ∨ tab.1 = tabo := by
  unfold processStore at h
  simp only [] at h
  split at h
  · obtain ⟨st1, hcust, hord⟩ := except_bind_ok _ _ _ h
    have hpub1 : st1.published = st.published ∨
        ∃ d, st1.published = st.published ++ [(tabc, d)] := by
      split at hcust
      · split at hcust
        · simp only [Except.ok.injEq] at hcust
          subst hcust
          exact Or.inr ⟨_, rfl⟩
        · simp at hcust
      · simp only [Except.ok.injEq] at hcust
        subst hcust
        exact Or.inl rfl
    have hpub2 : st2.published = st1.published ∨
        ∃ d, st2.published = st1.published ++ [(tabo, d)] := by
      split at hord
      · split at hord
        · simp only [Except.ok.injEq] at hord
          subst hord
          exact Or.inr ⟨_, rfl⟩
        · simp at hord
      · simp only [Except.ok.injEq] at hord
        subst hord
        exact Or.inl rfl
    intro tab htab
    rcases hpub2 with h2 | ⟨d2, h2⟩ <;> rw [h2] at htab
    · rcases hpub1 with h1 | ⟨d1, h1⟩ <;> rw [h1] at htab
      · exact Or.inl htab
      · rcases List.mem_append.mp htab with hm | hm
        · exact Or.inl hm
        · rw [List.mem_singleton] at hm
          rw [hm]
          exact Or.inr (Or.inl rfl)
    · rcases List.mem_append.mp htab with hm | hm
      · rcases hpub1 with h1 | ⟨d1, h1⟩ <;> rw [h1] at hm
        · exact Or.inl hm
        · rcases List.mem_append.mp hm with hm2 | hm2
          · exact Or.inl hm2
          · rw [List.mem_singleton] at hm2
            rw [hm2]
            exact Or.inr (Or.inl rfl)
      · rw [List.mem_singleton] at hm
        rw [hm]
        exact Or.inr (Or.inr rfl)
  · simp only [Except.ok.injEq] at h
    subst h
    intro tab htab
    exact Or.inl htab

/-- The store loop only publishes to the six per-store tabs. -/
theorem runStores_published_names (creds : String → StoreCreds) (data : String → StoreData)
    (st : RunState) (h : runStores creds data = .ok st) :
    ∀ tab ∈ st.published,
      tab.1 = "Customer_EU" ∨ tab.1 = "Orders_EU" ∨ tab.1 = "Customer_CZ" ∨
      tab.1 = "Orders_CZ" ∨ tab.1 = "Customer_Carport" ∨ tab.1 = "Orders_Carport" := by
  unfold runStores storesList at h
  simp only [List.foldl_cons, List.foldl_nil] at h
  obtain ⟨st2, h12, h3⟩ := except_bind_ok _ _ _ h
  obtain ⟨st1, h01, h2⟩ := except_bind_ok _ _ _ h12
  obtain ⟨st0, h00, h1⟩ := except_bind_ok _ _ _ h01
  simp only [Except.ok.injEq] at h00
  subst h00
  intro tab htab
  rcases processStore_published_names creds data st2 _ _ _ st h3 tab htab with k | k | k
  · rcases processStore_published_names creds data st1 _ _ _ st2 h2 tab k with k2 | k2 | k2
    · rcases processStore_published_names creds data initState _ _ _ st1 h1 tab k2
        with k1 | k1 | k1
      · simp [initState] at k1
      · exact Or.inl k1
      · exact Or.inr (Or.inl k1)
    · exact Or.inr (Or.inr (Or.inl k2))
    · exact Or.inr (Or.inr (Or.inr (Or.inl k2)))
  · exact Or.inr (Or.inr (Or.inr (Or.inr (Or.inl k))))
  · exact Or.inr (Or.inr (Or.inr (Or.inr (Or.inr k))))

/-- C6: when both accumulated tables are non-empty and either join-key
column is absent, the run aborts with the schema `KeyError` raised at
source line 444, and nothing published carries the Combined Table tab. -/
theorem missing_join_key_fatal (creds : String → StoreCreds) (data : String → StoreData)
    (st : RunState)
    (hrun : runStores creds data = .ok st)
    (hc : st.all_customers ≠ []) (ho : st.all_orders ≠ [])
    (hkey : (Scalar.str "customers_id")
        ∉ (addPrefixT (mkDataFrame (st.all_customers.map toRow)) "customers_").cols ∨
      (Scalar.str "orders_customer_admin_graphql_api_id")
        ∉ (addPrefixT (mkDataFrame st.all_orders) "orders_").cols) :
    process_stores creds data
      = .error (st, "One or both of the required columns are missing for merging") ∧
    ∀ tab ∈ st.published, tab.1 ≠ "Combined_Customers_Orders" := by
  constructor
  · unfold process_stores
    rw [hrun]
    show Except.bind _ _ = _
    simp only [Except.bind]
    have hc2 : st.all_customers.isEmpty = false := by
      simpa [List.isEmpty_iff] using hc
    have ho2 : st.all_orders.isEmpty = false := by
      simpa [List.isEmpty_iff] using ho
    have hcond : (decide ((Scalar.str "customers_id")
        ∈ (addPrefixT (mkDataFrame (st.all_customers.map toRow)) "customers_").cols) &&
        decide ((Scalar.str "orders_customer_admin_graphql_api_id")
        ∈ (addPrefixT (mkDataFrame st.all_orders) "orders_").cols)) = false := by
      rcases hkey with hk | hk <;> simp [hk]
    unfold postLoop
    simp only [hc2, ho2, Bool.false_eq_true, if_false, Bool.not_false, Bool.and_self, if_true,
      hcond]
  · intro tab htab he
    have hnames := runStores_published_names creds data st hrun tab htab
    rw [he] at hnames
    rcases hnames with h | h | h | h | h | h <;> simp at h

/-- Credentials for the C6 witness: only the EU store is configured. -/
def credsJoinW : String → StoreCreds := fun s =>
  if s = "SHOPIFY_EU" then ⟨some "eu", some "t"⟩ else ⟨none, none⟩

/-- Fetched data for the C6 witness: one customer with an `id`, one
order whose customer reference has an embedded `id` (so the per-store
`customer_id` check passes) but no `admin_graphql_api_id` (so the
accumulated join key column is absent). -/
def dataJoinW : String → StoreData := fun _ =>
  ⟨[.obj [("id", .scalar (.int 1))]],
   [[("customer", .obj [("id", .scalar (.int 5))])]]⟩

/-- The state after the store loop on the C6 witness inputs. -/
def stJoinW : RunState := ((runStores credsJoinW dataJoinW).toOption).getD initState

set_option maxRecDepth 1000000 in
/-- Witness for C6 at the concrete inputs above. -/
theorem missing_join_key_fatal_witness :
    process_stores credsJoinW dataJoinW
      = .error (stJoinW, "One or both of the required columns are missing for merging") :=
  (missing_join_key_fatal credsJoinW dataJoinW stJoinW (by rfl) (by decide) (by decide)
    (Or.inr (by decide))).1

/-! ### Claims C7 and C8: the post-loop crash on empty accumulators -/

set_option maxRecDepth 100000 in
/-- C7 (code bug): when every configured store yields no customers and
no orders, each per-store "no data" outcome is recorded and no publish
is attempted — but the run then aborts with `UnboundLocalError` at the
debug logging of source lines 332-333 (`df_all_customers` was never
assigned), instead of completing with its summary as the claim and the
spec require. -/
theorem empty_fetch_unbound_local :
    process_stores (fun s => ⟨some s, some "t"⟩) (fun _ => ⟨[], []⟩)
      = .error (⟨["No customer data found for store: SHOPIFY_EU",
                  "No orders data found for store: SHOPIFY_EU",
                  "No customer data found for store: SHOPIFY_CZ",
                  "No orders data found for store: SHOPIFY_CZ",
                  "No customer data found for store: SHOPIFY_CARPORT",
                  "No orders data found for store: SHOPIFY_CARPORT"], [], [], []⟩,
        "UnboundLocalError: local variable \x27df_all_customers\x27 referenced before assignment")
    := by rfl

set_option maxRecDepth 100000 in
/-- C8 (code bug): when every store lacks credentials, each per-store
"missing credentials" outcome is recorded, no fetch or publish happens,
and the loop visits all stores in iteration order — but the run then
aborts with `UnboundLocalError` at the debug logging of source lines
332-333 because the accumulators stayed empty, so the
missing-credentials condition alone does abort the run, contrary to the
claim and the spec. -/
theorem missing_credentials_unbound_local :
    process_stores (fun _ => ⟨none, none⟩) (fun _ => ⟨[], []⟩)
      = .error (⟨["Missing credentials for store: SHOPIFY_EU",
                  "Missing credentials for store: SHOPIFY_CZ",
                  "Missing credentials for store: SHOPIFY_CARPORT"], [], [], []⟩,
        "UnboundLocalError: local variable \x27df_all_customers\x27 referenced before assignment")
    := by rfl
